import Mathlib

/-!
Shallow embedding of the progress-streaming protocol of `src/bin/server.js`
(node-chatgpt-api): the POST producer (first-token write, append writes,
terminal result/error writes), the GET delta reader, and the key-value
conversation store they share.

Modelling conventions:
* JS records stored under a conversation id become `ConversationRecord`.
  Fields that the code leaves absent or writes as `false` are modelled by
  `Option`-`none` / `false` defaults (the handlers only ever test them for
  truthiness).
* The external key-value store (`@cyclic.sh/dynamodb` collection, not part
  of this repository's sources) is modelled from the spec: `set` merges the
  provided top-level fields into the existing item, preserving the rest
  ("write back only the token list ... preserving the original ttl").
* Machine integers are `Nat` (indices, epoch seconds, HTTP codes).
* The asynchronous handlers are embedded as pure state-passing functions;
  the producer's `waitConversationKV` (which polls forever when the record
  never appears) is modelled by an `Option` result, `none` meaning the
  producer would suspend forever.
-/

/-- One stored token entry `{index, token}` (server.js line 112/124). -/
structure TokenEntry where
  index : Nat
  token : String
deriving DecidableEq, Repr

/-- The stored error payload `{code, error: message}` (server.js lines 193-198
and the 404 payload of the GET handler). The message string is stored under
the JS key `error`; we keep that field name. -/
structure ErrRec where
  code : Nat
  error : String
deriving DecidableEq, Repr

/-- A conversation record as stored in the `conversation` collection.
Absent JS fields are represented by the defaults (`[]`, `false`, `none`):
the handlers only ever test `done`/`error`/`result` for truthiness, and the
falsy values `false`/absent are indistinguishable to them. -/
structure ConversationRecord where
  tokens : List TokenEntry := []
  done : Bool := false
  result : Option String := none
  error : Option ErrRec := none
  ttl : Nat := 0
deriving DecidableEq, Repr

/-- The payload of one `conversationKV.set` call: the top-level fields the
call provides (`none` = field not provided, hence preserved by the store's
merge). An inner `none` models writing the falsy placeholder `false`. -/
structure WriteProps where
  tokens : Option (List TokenEntry) := none
  done : Option Bool := none
  result : Option (Option String) := none
  error : Option (Option ErrRec) := none
  ttl : Option Nat := none
deriving DecidableEq, Repr

/-- The conversation store: an association list keyed by conversation id. -/
def KVStore := List (String × ConversationRecord)
deriving DecidableEq

/-- `conversationKV.get(conversationID)`: first binding for the key, if any. -/
def kvGet : KVStore → String → Option ConversationRecord
  | [], _ => none
  | (k, v) :: rest, key => if k = key then some v else kvGet rest key

/-- Modelled from the spec: the external store's `set` merges the provided
top-level fields into the existing item ("write back only the token list
(not done/result/error), preserving the original ttl"); fields not provided
keep their old value, and a missing item starts from the all-absent record. -/
def applyWrite (old : ConversationRecord) (w : WriteProps) : ConversationRecord where
  tokens := w.tokens.getD old.tokens
  done := w.done.getD old.done
  result := w.result.getD old.result
  error := w.error.getD old.error
  ttl := w.ttl.getD old.ttl

/-- Replace (or add) the binding for `key` with the given record. -/
def kvSetRec : KVStore → String → ConversationRecord → KVStore
  | [], key, v => [(key, v)]
  | (k, v') :: rest, key, v =>
      if k = key then (key, v) :: rest else (k, v') :: kvSetRec rest key v

/-- `conversationKV.set(conversationID, props)`: merge `props` into the
current item (or into the empty item when absent) and store the result. -/
def kvSet (s : KVStore) (key : String) (w : WriteProps) : KVStore :=
  kvSetRec s key (applyWrite ((kvGet s key).getD {}) w)

/-- Comparator relation of `tokens.sort((a, b) => a.index - b.index)`:
ascending by `index`. -/
def leIdx (a b : TokenEntry) : Prop := a.index ≤ b.index

/-- Strict version of `leIdx`, used to state uniqueness of the sorted order. -/
def ltIdx (a b : TokenEntry) : Prop := a.index < b.index

instance : DecidableRel leIdx := fun a b => inferInstanceAs (Decidable (a.index ≤ b.index))

instance : IsTotal TokenEntry leIdx := ⟨fun a b => Nat.le_total a.index b.index⟩

instance : IsTrans TokenEntry leIdx := ⟨fun _ _ _ h h' => Nat.le_trans h h'⟩

instance : IsAntisymm TokenEntry ltIdx := ⟨fun _ _ h h' => absurd h (Nat.lt_asymm h')⟩

/-- `tokens.sort((a, b) => a.index - b.index)` (server.js line 237): sorting
the stored entries ascending by index. -/
def sortTokens (l : List TokenEntry) : List TokenEntry := l.insertionSort leIdx

/-- The GET handler's accumulation loop
`for (let index = nextID; index < end; index++) data += tokens[index].token`
as a left fold over the sorted entries from position `nextID`. -/
def concatLoop (acc : String) (l : List TokenEntry) : String :=
  l.foldl (fun acc e => acc ++ e.token) acc

/-- The three response shapes of the GET handler:
`{id:'', event:'error', data}`, `{event:'result', id:'', data}` and
`{id: end, data}`. -/
inductive GetResponse where
  | errorEvent (data : ErrRec)
  | resultEvent (data : Option String)
  | chunk (id : Nat) (data : String)
deriving DecidableEq, Repr

/-- The 404 payload of the GET handler for an unknown conversation id. -/
def notFoundErr : ErrRec := ⟨404, "conversationID not Found!"⟩

/-- `GET /conversation/:conversationID/:nextID` (server.js lines 206-243).
`nextID?` is the route parameter, defaulting to 0 when absent. The handler is
read-only: it returns a response and never touches the store. The loop bound
`end` is `tokens.length`, so the loop covers exactly the sorted entries from
position `nextID` on. -/
def handleGet (store : KVStore) (conversationID : String) (nextID? : Option Nat) :
    GetResponse :=
  let nextID := nextID?.getD 0
  match kvGet store conversationID with
  | none => .errorEvent notFoundErr
  | some conv =>
    match conv.error with
    | some error => .errorEvent error
    | none =>
      if conv.done then
        .resultEvent conv.result
      else
        .chunk conv.tokens.length (concatLoop "" ((sortTokens conv.tokens).drop nextID))

/-- The first-token branch of `onProgress` (server.js lines 109-119 and 128):
`conversationCount` is 1, so the new record is
`{tokens: [{index: 1, token}], done: false, error: false, result: false,
ttl: now + 10*60}`. -/
def firstTokenWrite (store : KVStore) (conversationID : String) (token : String)
    (now : Nat) : KVStore :=
  kvSet store conversationID
    { tokens := some [⟨1, token⟩]
      done := some false
      result := some none
      error := some none
      ttl := some (now + 10 * 60) }

/-- The subsequent-token branch of `onProgress` (server.js lines 120-128):
wait for the record (`waitConversationKV`), push `{index, token}` onto its
token list and write back only `{tokens}`. Returns `none` when the record
never exists, in which case the wait never resolves. -/
def appendTokenWrite (store : KVStore) (conversationID : String) (index : Nat)
    (token : String) : Option KVStore :=
  match kvGet store conversationID with
  | none => none
  | some conv =>
      some (kvSet store conversationID
        { tokens := some (conv.tokens ++ [⟨index, token⟩]) })

/-- The whole sequence of `onProgress` invocations of one streaming POST:
`count` is the value of `conversationCount` before the next token (0 initially,
so the first invocation takes the `conversationStart` branch). -/
def producerSteps (conversationID : String) (now : Nat) :
    KVStore → Nat → List String → Option KVStore
  | store, _, [] => some store
  | store, count, token :: rest =>
      if count = 0 then
        producerSteps conversationID now
          (firstTokenWrite store conversationID token now) 1 rest
      else
        match appendTokenWrite store conversationID (count + 1) token with
        | none => none
        | some store => producerSteps conversationID now store (count + 1) rest

/-- `error?.data?.code` or `error?.data?.message` of the POST error branch:
a JS property chain that may be absent. -/
structure ErrData where
  code : Option Nat := none
  message : Option String := none
deriving DecidableEq, Repr

/-- A value thrown by (or around) `client.sendMessage`: only its optional
`data` property is inspected by the handler. -/
structure ProvErr where
  data : Option ErrData := none
deriving DecidableEq, Repr

/-- Outcome of the `client.sendMessage` call: a resolved result or a thrown
error. -/
inductive ProvOutcome where
  | ok (result : String)
  | err (e : ProvErr)
deriving DecidableEq, Repr

/-- The behaviour of one `client.sendMessage` call: the tokens it feeds to
`onProgress` (in order) before resolving or throwing. -/
structure ProviderCall where
  tokens : List String
  outcome : ProvOutcome
deriving DecidableEq, Repr

/-- The request body fields the handler inspects (`body.message`,
`body.stream === true`). -/
structure PostBody where
  message : Option String := none
  stream : Bool := false
deriving DecidableEq, Repr

/-- The ways the POST handler answers: `reply.send(result)`,
`reply.code(code).send({error: message})`, or `reply.raw.end()` after the
terminal store write in stream mode. -/
inductive PostResponse where
  | sent (result : String)
  | errorSent (code : Nat) (message : String)
  | streamEnd
deriving DecidableEq, Repr

/-- JS truthiness of `body.message`: absent and the empty string are falsy. -/
def jsTruthyStr : Option String → Bool
  | none => false
  | some s => !(s == "")

/-- JS `x || d` for an optional number `x`: absent and 0 are falsy. -/
def jsOrNat : Option Nat → Nat → Nat
  | none, d => d
  | some n, d => if n = 0 then d else n

/-- JS `x || d` for an optional string `x`: absent and `""` are falsy. -/
def jsOrStr : Option String → String → String
  | none, d => d
  | some s, d => if s = "" then d else s

/-- `invalidError.data` thrown when `body.message` is falsy
(server.js lines 138-144). -/
def validationErrData : ErrData :=
  { code := some 400, message := some "The message parameter is required." }

/-- The fallback error message (server.js line 181). -/
def defaultProviderMessage (clientToUse : String) : String :=
  if clientToUse = "bing" then
    "There was an error communicating with Bing."
  else
    "There was an error communicating with ChatGPT."

/-- `const code = error?.data?.code || 503` (server.js line 175). -/
def errCodeOf (data : Option ErrData) : Nat :=
  jsOrNat (data.bind (·.code)) 503

/-- `const message = error?.data?.message || <default>` (server.js line 181). -/
def errMessageOf (data : Option ErrData) (clientToUse : String) : String :=
  jsOrStr (data.bind (·.message)) (defaultProviderMessage clientToUse)

/-- The error tail of the POST handler (server.js lines 175-203): compute
`code = error?.data?.code || 503` and
`message = error?.data?.message || default`; in stream mode write the
terminal `{error: {code, error: message}}` record and end the raw reply,
otherwise answer `reply.code(code).send({error: message})`. -/
def postErrorPath (store : KVStore) (conversationID : String) (body : PostBody)
    (data : Option ErrData) (clientToUse : String) : KVStore × PostResponse :=
  if body.stream then
    (kvSet store conversationID
      { error := some (some ⟨errCodeOf data, errMessageOf data clientToUse⟩) },
     .streamEnd)
  else
    (store, .errorSent (errCodeOf data) (errMessageOf data clientToUse))

/-- `POST /conversation/:conversationID` (server.js lines 80-204), as a pure
function of the request body, the provider call's behaviour and the store.
A falsy `body.message` throws `invalidError` before the provider is called;
otherwise, in stream mode the `onProgress` writes happen during the call,
followed by the terminal `{result, done: true}` or `{error: ...}` write.
`none` means the producer's bootstrap wait would never resolve (unreachable
from `count = 0`, see `producerSteps_total`). -/
def handlePost (store : KVStore) (conversationID : String) (body : PostBody)
    (prov : ProviderCall) (now : Nat) (clientToUse : String) :
    Option (KVStore × PostResponse) :=
  if jsTruthyStr body.message then
    match prov.outcome with
    | .ok result =>
        if body.stream then
          match producerSteps conversationID now store 0 prov.tokens with
          | none => none
          | some store₁ =>
              some (kvSet store₁ conversationID
                      { result := some (some result), done := some true },
                    .streamEnd)
        else
          some (store, .sent result)
    | .err e =>
        if body.stream then
          match producerSteps conversationID now store 0 prov.tokens with
          | none => none
          | some store₁ => some (postErrorPath store₁ conversationID body e.data clientToUse)
        else
          some (postErrorPath store conversationID body e.data clientToUse)
  else
    some (postErrorPath store conversationID body (some validationErrData) clientToUse)

/-- The token list a single producer writes for the stream `ts`, with the
1-based indices `i, i+1, ...` assigned by `conversationCount`. -/
def canonicalTokens : Nat → List String → List TokenEntry
  | _, [] => []
  | i, t :: ts => ⟨i, t⟩ :: canonicalTokens (i + 1) ts

/-- Concatenation of a list of token strings in list order. -/
def joinStrs : List String → String
  | [] => ""
  | s :: rest => s ++ joinStrs rest

/-- The spec's reading of the partial result: concatenation of the token text
of all stored entries whose `index` field is ≥ `lastIndex`, in index order. -/
def concatIndexGe (l : List TokenEntry) (lastIndex : Nat) : String :=
  joinStrs (((sortTokens l).filter (fun e => decide (lastIndex ≤ e.index))).map (·.token))

/-! ### Store lemmas -/

theorem kvGet_kvSetRec_self (s : KVStore) (key : String) (v : ConversationRecord) :
    kvGet (kvSetRec s key v) key = some v := by
  induction s with
  | nil => simp [kvSetRec, kvGet]
  | cons hd rest ih =>
      obtain ⟨k, v'⟩ := hd
      by_cases h : k = key
      · simp [kvSetRec, kvGet, h]
      · simp [kvSetRec, kvGet, h, ih]

theorem kvGet_kvSet_self (s : KVStore) (key : String) (w : WriteProps) :
    kvGet (kvSet s key w) key = some (applyWrite ((kvGet s key).getD {}) w) := by
  unfold kvSet
  exact kvGet_kvSetRec_self ..

theorem isSome_kvGet_kvSet_self (s : KVStore) (key : String) (w : WriteProps) :
    (kvGet (kvSet s key w) key).isSome := by
  rw [kvGet_kvSet_self]; rfl

/-! ### Canonical producer token lists and sorting -/

theorem canonicalTokens_index_ge {i : Nat} {ts : List String} :
    ∀ e ∈ canonicalTokens i ts, i ≤ e.index := by
  induction ts generalizing i with
  | nil => intro e h; simp [canonicalTokens] at h
  | cons t ts ih =>
      intro e h
      simp only [canonicalTokens, List.mem_cons] at h
      rcases h with h | h
      · subst h; exact Nat.le_refl i
      · exact Nat.le_of_succ_le (ih e h)

theorem canonicalTokens_sorted_lt (i : Nat) (ts : List String) :
    List.Sorted ltIdx (canonicalTokens i ts) := by
  induction ts generalizing i with
  | nil => exact List.sorted_nil
  | cons t ts ih =>
      refine List.Pairwise.cons ?_ (ih (i + 1))
      intro e he
      exact Nat.lt_of_succ_le (canonicalTokens_index_ge e he)

theorem canonicalTokens_length (i : Nat) (ts : List String) :
    (canonicalTokens i ts).length = ts.length := by
  induction ts generalizing i with
  | nil => rfl
  | cons t ts ih => simp [canonicalTokens, ih]

theorem canonicalTokens_map_token (i : Nat) (ts : List String) :
    (canonicalTokens i ts).map (·.token) = ts := by
  induction ts generalizing i with
  | nil => rfl
  | cons t ts ih => simp [canonicalTokens, ih]

theorem canonicalTokens_drop (i k : Nat) (ts : List String) :
    (canonicalTokens i ts).drop k = canonicalTokens (i + k) (ts.drop k) := by
  induction ts generalizing i k with
  | nil => simp [canonicalTokens]
  | cons t ts ih =>
      cases k with
      | zero => simp [canonicalTokens]
      | succ k =>
          simp only [canonicalTokens, List.drop_succ_cons]
          rw [ih (i + 1) k]
          congr 1
          omega

theorem pairwise_lt_of_le_of_nodup :
    ∀ {l : List TokenEntry}, l.Pairwise leIdx →
      (l.map TokenEntry.index).Nodup → l.Pairwise ltIdx := by
  intro l
  induction l with
  | nil => intro _ _; exact List.Pairwise.nil
  | cons a l ih =>
      intro hle hnd
      rw [List.pairwise_cons] at hle
      simp only [List.map_cons, List.nodup_cons] at hnd
      refine List.Pairwise.cons ?_ (ih hle.2 hnd.2)
      intro b hb
      have hne : a.index ≠ b.index := by
        intro h
        exact hnd.1 (h ▸ List.mem_map_of_mem TokenEntry.index hb)
      exact Nat.lt_of_le_of_ne (hle.1 b hb) hne

theorem nodup_map_index_canonical (i : Nat) (ts : List String) :
    ((canonicalTokens i ts).map TokenEntry.index).Nodup := by
  have h : ((canonicalTokens i ts).map TokenEntry.index).Pairwise (· < ·) :=
    List.pairwise_map.mpr (canonicalTokens_sorted_lt i ts)
  exact h.imp Nat.ne_of_lt

/-- Sorting any storage order of a producer-written token list recovers the
producer's index order: the sort output is a `leIdx`-sorted permutation of a
strictly sorted list with pairwise distinct indices, hence equal to it. -/
theorem sortTokens_eq_canonical {l : List TokenEntry} {i : Nat} {ts : List String}
    (h : l.Perm (canonicalTokens i ts)) : sortTokens l = canonicalTokens i ts := by
  have hperm : (sortTokens l).Perm (canonicalTokens i ts) :=
    (List.perm_insertionSort leIdx l).trans h
  have hsorted : List.Sorted leIdx (sortTokens l) := List.sorted_insertionSort leIdx l
  have hnd : ((sortTokens l).map TokenEntry.index).Nodup :=
    (hperm.map TokenEntry.index).nodup_iff.mpr (nodup_map_index_canonical i ts)
  exact List.eq_of_perm_of_sorted hperm
    (pairwise_lt_of_le_of_nodup hsorted hnd) (canonicalTokens_sorted_lt i ts)

/-! ### Concatenation lemmas -/

theorem string_append_empty (s : String) : s ++ "" = s := by
  cases s
  show String.mk _ = String.mk _
  simp [String.append]

theorem string_empty_append (s : String) : "" ++ s = s := by
  cases s
  show String.mk _ = String.mk _
  simp [String.append]

theorem concatLoop_eq (l : List TokenEntry) (acc : String) :
    concatLoop acc l = acc ++ joinStrs (l.map (·.token)) := by
  induction l generalizing acc with
  | nil => simp [concatLoop, joinStrs, string_append_empty]
  | cons e l ih =>
      simp only [concatLoop, List.foldl_cons, List.map_cons, joinStrs] at *
      rw [ih, String.append_assoc]

theorem joinStrs_append (a b : List String) :
    joinStrs (a ++ b) = joinStrs a ++ joinStrs b := by
  induction a with
  | nil =>
      show joinStrs b = "" ++ joinStrs b
      rw [string_empty_append]
  | cons s a ih =>
      show s ++ joinStrs (a ++ b) = (s ++ joinStrs a) ++ joinStrs b
      rw [ih, String.append_assoc]

/-! ### Delta Reader core lemmas -/

theorem handleGet_absent {store : KVStore} {id : String} (k : Option Nat)
    (h : kvGet store id = none) : handleGet store id k = .errorEvent notFoundErr := by
  unfold handleGet
  rw [h]

theorem handleGet_error {store : KVStore} {id : String} {conv : ConversationRecord}
    {e : ErrRec} (k : Option Nat) (h : kvGet store id = some conv)
    (he : conv.error = some e) : handleGet store id k = .errorEvent e := by
  simp only [handleGet, h, he]

theorem handleGet_done {store : KVStore} {id : String} {conv : ConversationRecord}
    (k : Option Nat) (h : kvGet store id = some conv) (he : conv.error = none)
    (hd : conv.done = true) : handleGet store id k = .resultEvent conv.result := by
  simp only [handleGet, h, he, hd, if_true]

theorem handleGet_chunk {store : KVStore} {id : String} {conv : ConversationRecord}
    (k : Nat) (h : kvGet store id = some conv) (he : conv.error = none)
    (hd : conv.done = false) :
    handleGet store id (some k) =
      .chunk conv.tokens.length
        (joinStrs (((sortTokens conv.tokens).drop k).map (·.token))) := by
  simp only [handleGet, h, he, hd, Bool.false_eq_true, if_false, Option.getD_some]
  rw [concatLoop_eq, string_empty_append]

/-- The partial read of a record holding some storage order of the producer's
token list for `ts`: the text is the concatenation of `ts` from position `k`,
and the returned id is the list length. -/
theorem handleGet_canonical {store : KVStore} {id : String} {conv : ConversationRecord}
    {ts : List String} (k : Nat) (h : kvGet store id = some conv)
    (he : conv.error = none) (hd : conv.done = false)
    (hp : conv.tokens.Perm (canonicalTokens 1 ts)) :
    handleGet store id (some k) = .chunk ts.length (joinStrs (ts.drop k)) := by
  rw [handleGet_chunk k h he hd, sortTokens_eq_canonical hp, canonicalTokens_drop,
    canonicalTokens_map_token, hp.length_eq, canonicalTokens_length]

/-! ### Producer totality -/

theorem producerSteps_total (id : String) (now : Nat) :
    ∀ (toks : List String) (store : KVStore) (count : Nat),
      (count = 0 ∨ (kvGet store id).isSome) →
      ∃ store', producerSteps id now store count toks = some store' ∧
        (toks = [] → store' = store) ∧
        (count = 0 → toks ≠ [] → (kvGet store' id).isSome) ∧
        (count ≠ 0 → (kvGet store id).isSome → (kvGet store' id).isSome) := by
  intro toks
  induction toks with
  | nil =>
      intro store count _
      exact ⟨store, rfl, fun _ => rfl, fun _ h => absurd rfl h, fun _ h => h⟩
  | cons t rest ih =>
      intro store count hc
      by_cases h0 : count = 0
      · subst h0
        have hs : (kvGet (firstTokenWrite store id t now) id).isSome :=
          isSome_kvGet_kvSet_self ..
        obtain ⟨store', hrun, _, _, hkeep⟩ :=
          ih (firstTokenWrite store id t now) 1 (Or.inr hs)
        refine ⟨store', ?_, ?_, ?_, ?_⟩
        · simpa [producerSteps] using hrun
        · intro h; cases h
        · intro _ _
          cases rest with
          | nil =>
              obtain ⟨s, hs', _⟩ : ∃ s, _ ∧ _ := ⟨store', hrun, rfl⟩
              simp only [producerSteps, Option.some.injEq] at hrun
              exact hrun ▸ hs
          | cons u us => exact hkeep (by simp) hs
        · intro h; cases h rfl
      · rcases hc with hc | hc
        · exact absurd hc h0
        · rw [Option.isSome_iff_exists] at hc
          obtain ⟨conv, hconv⟩ := hc
          have happ : appendTokenWrite store id (count + 1) t =
              some (kvSet store id { tokens := some (conv.tokens ++ [⟨count + 1, t⟩]) }) := by
            unfold appendTokenWrite
            rw [hconv]
          have hs : (kvGet (kvSet store id
              { tokens := some (conv.tokens ++ [⟨count + 1, t⟩]) }) id).isSome :=
            isSome_kvGet_kvSet_self ..
          obtain ⟨store', hrun, _, _, hkeep⟩ :=
            ih (kvSet store id { tokens := some (conv.tokens ++ [⟨count + 1, t⟩]) })
              (count + 1) (Or.inr hs)
          refine ⟨store', ?_, ?_, ?_, ?_⟩
          · simp only [producerSteps, h0, if_false, happ]
            exact hrun
          · intro h; cases h
          · intro h; exact absurd h h0
          · intro _ _
            cases rest with
            | nil =>
                simp only [producerSteps, Option.some.injEq] at hrun
                exact hrun ▸ hs
            | cons u us => exact hkeep (by simp) hs

/-! ### The filter form of the partial read -/

theorem canonicalTokens_filter (ts : List String) :
    ∀ i k : Nat, (canonicalTokens i ts).filter (fun e => decide (k < e.index)) =
      canonicalTokens (max i (k + 1)) (ts.drop (k + 1 - i)) := by
  induction ts with
  | nil => intro i k; simp [canonicalTokens]
  | cons t ts ih =>
      intro i k
      simp only [canonicalTokens, List.filter_cons]
      by_cases hik : k < i
      · rw [if_pos (by simpa using hik), ih (i + 1) k]
        have h3 : k + 1 - (i + 1) = 0 := by omega
        have h4 : max (i + 1) (k + 1) = i + 1 := by omega
        have h1 : k + 1 - i = 0 := by omega
        have h2 : max i (k + 1) = i := by omega
        rw [h3, h4, h1, h2]
        rfl
      · rw [if_neg (by simpa using hik), ih (i + 1) k]
        have h3 : k + 1 - (i + 1) = k - i := by omega
        have h4 : max (i + 1) (k + 1) = k + 1 := by omega
        have h1 : k + 1 - i = (k - i) + 1 := by omega
        have h2 : max i (k + 1) = k + 1 := by omega
        rw [h3, h4, h1, h2]
        rfl

theorem canonicalTokens_filter_drop (ts : List String) (k : Nat) :
    (canonicalTokens 1 ts).filter (fun e => decide (k < e.index)) =
      (canonicalTokens 1 ts).drop k := by
  have h1 : max 1 (k + 1) = 1 + k := by omega
  have h2 : k + 1 - 1 = k := by omega
  rw [canonicalTokens_filter, h1, h2, canonicalTokens_drop]

/-! ### Claim theorems -/

/-- C1: for every token sequence `ts` written by a single producer for one
conversation id, a GET in the non-terminal branch with `lastIndex = 0` made
after all appends returns the concatenation of all token strings in ascending
index order, whatever the storage order of the token list (any permutation of
the producer's 1-indexed list). -/
theorem claim1_read_all_from_zero {store : KVStore} {id : String}
    {conv : ConversationRecord} {ts : List String}
    (hget : kvGet store id = some conv) (herr : conv.error = none)
    (hdone : conv.done = false) (hperm : conv.tokens.Perm (canonicalTokens 1 ts)) :
    handleGet store id (some 0) = .chunk ts.length (joinStrs ts) :=
  handleGet_canonical 0 hget herr hdone hperm

/-- Witness for C1: the record stores `(2, "lo"), (1, "Hel")` out of order,
and the reader returns `"Hel" ++ "lo"` in index order. -/
theorem claim1_witness :
    kvGet [("c", ⟨[⟨2, "lo"⟩, ⟨1, "Hel"⟩], false, none, none, 1000⟩)] "c" =
        some ⟨[⟨2, "lo"⟩, ⟨1, "Hel"⟩], false, none, none, 1000⟩ ∧
    ([⟨2, "lo"⟩, ⟨1, "Hel"⟩] : List TokenEntry).Perm (canonicalTokens 1 ["Hel", "lo"]) ∧
    handleGet [("c", ⟨[⟨2, "lo"⟩, ⟨1, "Hel"⟩], false, none, none, 1000⟩)] "c" (some 0) =
      .chunk 2 (joinStrs ["Hel", "lo"]) :=
  ⟨rfl, by decide,
    @claim1_read_all_from_zero [("c", ⟨[⟨2, "lo"⟩, ⟨1, "Hel"⟩], false, none, none, 1000⟩)]
      "c" ⟨[⟨2, "lo"⟩, ⟨1, "Hel"⟩], false, none, none, 1000⟩ ["Hel", "lo"]
      rfl rfl rfl (by decide)⟩

/-- C5: once a record is terminal (`done` set or `error` present) the reader
returns the corresponding terminal variant at any `lastIndex`, never the
partial-tokens variant; when `error` is present the error variant wins. -/
theorem claim5_terminal_exclusive {store : KVStore} {id : String}
    {conv : ConversationRecord} (k : Option Nat) (hget : kvGet store id = some conv)
    (hterm : conv.done = true ∨ conv.error ≠ none) :
    (match conv.error with
      | some e => handleGet store id k = .errorEvent e
      | none => handleGet store id k = .resultEvent conv.result) ∧
    ∀ n d, handleGet store id k ≠ .chunk n d := by
  cases he : conv.error with
  | some e =>
      refine ⟨handleGet_error k hget he, ?_⟩
      intro n d hcontra
      rw [handleGet_error k hget he] at hcontra
      exact GetResponse.noConfusion hcontra
  | none =>
      have hd : conv.done = true := by
        rcases hterm with hd | hne
        · exact hd
        · exact absurd he hne
      refine ⟨handleGet_done k hget he hd, ?_⟩
      intro n d hcontra
      rw [handleGet_done k hget he hd] at hcontra
      exact GetResponse.noConfusion hcontra

/-- Witness for C5: a `done` record with a result is read as the result
variant and never as a token chunk. -/
theorem claim5_witness :
    kvGet [("c", ⟨[⟨1, "x"⟩], true, some "r", none, 0⟩)] "c" =
        some ⟨[⟨1, "x"⟩], true, some "r", none, 0⟩ ∧
    ((⟨[⟨1, "x"⟩], true, some "r", none, 0⟩ : ConversationRecord).done = true ∨
        (⟨[⟨1, "x"⟩], true, some "r", none, 0⟩ : ConversationRecord).error ≠ none) ∧
    handleGet [("c", ⟨[⟨1, "x"⟩], true, some "r", none, 0⟩)] "c" (some 0) =
        .resultEvent (some "r") ∧
    handleGet [("c", ⟨[⟨1, "x"⟩], true, some "r", none, 0⟩)] "c" (some 0) ≠ .chunk 1 "x" :=
  ⟨rfl, Or.inl rfl,
    (@claim5_terminal_exclusive [("c", ⟨[⟨1, "x"⟩], true, some "r", none, 0⟩)] "c"
      ⟨[⟨1, "x"⟩], true, some "r", none, 0⟩ (some 0) rfl (Or.inl rfl)).1,
    (@claim5_terminal_exclusive [("c", ⟨[⟨1, "x"⟩], true, some "r", none, 0⟩)] "c"
      ⟨[⟨1, "x"⟩], true, some "r", none, 0⟩ (some 0) rfl (Or.inl rfl)).2 1 "x"⟩

/-- C6: an append write for a token after the first updates only the `tokens`
field of the stored record; `done`, `result`, `error` and `ttl` are unchanged
(the store write provides the token list alone and the merge preserves the
rest). -/
theorem claim6_append_frame {store : KVStore} {id : String}
    {conv : ConversationRecord} (index : Nat) (token : String)
    (hget : kvGet store id = some conv) :
    appendTokenWrite store id index token =
      some (kvSet store id { tokens := some (conv.tokens ++ [⟨index, token⟩]) }) ∧
    kvGet (kvSet store id { tokens := some (conv.tokens ++ [⟨index, token⟩]) }) id =
      some ⟨conv.tokens ++ [⟨index, token⟩], conv.done, conv.result, conv.error,
        conv.ttl⟩ := by
  constructor
  · unfold appendTokenWrite
    rw [hget]
  · rw [kvGet_kvSet_self, hget]
    rfl

/-- Witness for C6: appending `(2, "b")` to a live record keeps `done`,
`result`, `error` and the original `ttl` 50. -/
theorem claim6_witness :
    kvGet [("c", ⟨[⟨1, "a"⟩], false, none, none, 50⟩)] "c" =
        some ⟨[⟨1, "a"⟩], false, none, none, 50⟩ ∧
    appendTokenWrite [("c", ⟨[⟨1, "a"⟩], false, none, none, 50⟩)] "c" 2 "b" =
      some (kvSet [("c", ⟨[⟨1, "a"⟩], false, none, none, 50⟩)] "c"
        { tokens := some ([⟨1, "a"⟩] ++ [⟨2, "b"⟩]) }) ∧
    kvGet (kvSet [("c", ⟨[⟨1, "a"⟩], false, none, none, 50⟩)] "c"
        { tokens := some ([⟨1, "a"⟩] ++ [⟨2, "b"⟩]) }) "c" =
      some ⟨[⟨1, "a"⟩] ++ [⟨2, "b"⟩], false, none, none, 50⟩ :=
  ⟨rfl,
    (@claim6_append_frame [("c", ⟨[⟨1, "a"⟩], false, none, none, 50⟩)] "c"
      ⟨[⟨1, "a"⟩], false, none, none, 50⟩ 2 "b" rfl).1,
    (@claim6_append_frame [("c", ⟨[⟨1, "a"⟩], false, none, none, 50⟩)] "c"
      ⟨[⟨1, "a"⟩], false, none, none, 50⟩ 2 "b" rfl).2⟩

/-- C7: the first token of a conversation writes a record with exactly
`tokens = [(1, token)]`, `done = false`, no `error`, no `result` and
`ttl = now + 600`; the written record does not depend on any prior state of
the store (the write is authoritative for initialization). -/
theorem claim7_first_token_record (store : KVStore) (id token : String) (now : Nat) :
    kvGet (firstTokenWrite store id token now) id =
      some ⟨[⟨1, token⟩], false, none, none, now + 10 * 60⟩ := by
  rw [firstTokenWrite, kvGet_kvSet_self]
  rfl

/-- C9: a read for a conversation id with no record returns the 404-style
error payload. `handleGet` returns only a response and performs no store
write, so there is no other effect on the store. -/
theorem claim9_not_found {store : KVStore} {id : String} (k : Option Nat)
    (h : kvGet store id = none) :
    handleGet store id k = .errorEvent ⟨404, "conversationID not Found!"⟩ :=
  handleGet_absent k h

/-- Witness for C9: the empty store holds no record for any id. -/
theorem claim9_witness :
    kvGet ([] : KVStore) "missing" = none ∧
    handleGet ([] : KVStore) "missing" (some 0) =
      .errorEvent ⟨404, "conversationID not Found!"⟩ :=
  ⟨rfl, claim9_not_found (some 0) rfl⟩

/-- C10: the reader checks `error` before `done`, so a record violating the
mutual-exclusivity invariant (both `error` set and `done`/`result` set) is
always read as the error variant, never as the result variant. -/
theorem claim10_error_checked_first {store : KVStore} {id : String}
    {conv : ConversationRecord} {e : ErrRec} (k : Option Nat)
    (hget : kvGet store id = some conv) (he : conv.error = some e)
    (_hd : conv.done = true) :
    handleGet store id k = .errorEvent e ∧
    ∀ r, handleGet store id k ≠ .resultEvent r := by
  refine ⟨handleGet_error k hget he, ?_⟩
  intro r hcontra
  rw [handleGet_error k hget he] at hcontra
  exact GetResponse.noConfusion hcontra

/-- Witness for C10: a record with both `done`, a result and an error is read
as the error variant. -/
theorem claim10_witness :
    kvGet [("c", ⟨[], true, some "r", some ⟨500, "boom"⟩, 0⟩)] "c" =
        some ⟨[], true, some "r", some ⟨500, "boom"⟩, 0⟩ ∧
    (⟨[], true, some "r", some ⟨500, "boom"⟩, 0⟩ : ConversationRecord).error =
        some ⟨500, "boom"⟩ ∧
    (⟨[], true, some "r", some ⟨500, "boom"⟩, 0⟩ : ConversationRecord).done = true ∧
    handleGet [("c", ⟨[], true, some "r", some ⟨500, "boom"⟩, 0⟩)] "c" (some 0) =
        .errorEvent ⟨500, "boom"⟩ ∧
    handleGet [("c", ⟨[], true, some "r", some ⟨500, "boom"⟩, 0⟩)] "c" (some 0) ≠
        .resultEvent (some "r") :=
  ⟨rfl, rfl, rfl,
    (@claim10_error_checked_first [("c", ⟨[], true, some "r", some ⟨500, "boom"⟩, 0⟩)] "c"
      ⟨[], true, some "r", some ⟨500, "boom"⟩, 0⟩ ⟨500, "boom"⟩ (some 0) rfl rfl rfl).1,
    (@claim10_error_checked_first [("c", ⟨[], true, some "r", some ⟨500, "boom"⟩, 0⟩)] "c"
      ⟨[], true, some "r", some ⟨500, "boom"⟩, 0⟩ ⟨500, "boom"⟩ (some 0) rfl rfl rfl).2
      (some "r")⟩

/-- C2 (amended): for a producer record read at `lastIndex = k` with
`k ≤` the length at the first call, a second read whose `lastIndex` is the
first call's returned next-index (`ts.length`), after further appends `us`,
re-returns nothing and skips nothing: the two texts concatenate to the
contiguous sequence from position `k` to the end at the time of the second
call. -/
theorem claim2_progress {store₁ store₂ : KVStore} {id : String}
    {conv₁ conv₂ : ConversationRecord} {ts us : List String} (k : Nat)
    (hget₁ : kvGet store₁ id = some conv₁) (herr₁ : conv₁.error = none)
    (hdone₁ : conv₁.done = false) (hperm₁ : conv₁.tokens.Perm (canonicalTokens 1 ts))
    (hget₂ : kvGet store₂ id = some conv₂) (herr₂ : conv₂.error = none)
    (hdone₂ : conv₂.done = false)
    (hperm₂ : conv₂.tokens.Perm (canonicalTokens 1 (ts ++ us)))
    (hk : k ≤ ts.length) :
    handleGet store₁ id (some k) = .chunk ts.length (joinStrs (ts.drop k)) ∧
    handleGet store₂ id (some ts.length) = .chunk (ts ++ us).length (joinStrs us) ∧
    joinStrs (ts.drop k) ++ joinStrs us = joinStrs ((ts ++ us).drop k) := by
  refine ⟨handleGet_canonical k hget₁ herr₁ hdone₁ hperm₁, ?_, ?_⟩
  · have h := handleGet_canonical ts.length hget₂ herr₂ hdone₂ hperm₂
    rw [List.drop_left] at h
    exact h
  · rw [← joinStrs_append, List.drop_append_of_le_length hk]

/-- Counterexample to C2 as stated (for *every* lastIndex k): with one stored
token, a first read at `lastIndex = 2` returns next-index 1 and empty text; a
second read at that next-index after one append returns `"b"`; the union
`"b"` is not the contiguous token sequence from position 2 to the end
(which is empty). The claim holds only for `k ≤` the length at the first
call. -/
theorem claim2_counterexample :
    handleGet [("c", ⟨[⟨1, "a"⟩], false, none, none, 0⟩)] "c" (some 2) = .chunk 1 "" ∧
    handleGet [("c", ⟨[⟨1, "a"⟩, ⟨2, "b"⟩], false, none, none, 0⟩)] "c" (some 1) =
      .chunk 2 "b" ∧
    "" ++ "b" ≠ joinStrs (["a", "b"].drop 2) := by
  refine ⟨by decide, by decide, by decide⟩

/-- Witness for C2: two tokens then one more append, read at `k = 1`. -/
theorem claim2_witness :
    ([⟨2, "lo"⟩, ⟨1, "Hel"⟩] : List TokenEntry).Perm (canonicalTokens 1 ["Hel", "lo"]) ∧
    ([⟨3, "!"⟩, ⟨1, "Hel"⟩, ⟨2, "lo"⟩] : List TokenEntry).Perm
      (canonicalTokens 1 (["Hel", "lo"] ++ ["!"])) ∧
    1 ≤ (["Hel", "lo"] : List String).length ∧
    handleGet [("c", ⟨[⟨2, "lo"⟩, ⟨1, "Hel"⟩], false, none, none, 0⟩)] "c" (some 1) =
      .chunk 2 (joinStrs (["Hel", "lo"].drop 1)) ∧
    handleGet [("c", ⟨[⟨3, "!"⟩, ⟨1, "Hel"⟩, ⟨2, "lo"⟩], false, none, none, 0⟩)] "c"
      (some 2) = .chunk 3 (joinStrs ["!"]) ∧
    joinStrs (["Hel", "lo"].drop 1) ++ joinStrs ["!"] =
      joinStrs ((["Hel", "lo"] ++ ["!"]).drop 1) :=
  ⟨by decide, by decide, by decide,
    (@claim2_progress [("c", ⟨[⟨2, "lo"⟩, ⟨1, "Hel"⟩], false, none, none, 0⟩)]
      [("c", ⟨[⟨3, "!"⟩, ⟨1, "Hel"⟩, ⟨2, "lo"⟩], false, none, none, 0⟩)] "c"
      ⟨[⟨2, "lo"⟩, ⟨1, "Hel"⟩], false, none, none, 0⟩
      ⟨[⟨3, "!"⟩, ⟨1, "Hel"⟩, ⟨2, "lo"⟩], false, none, none, 0⟩
      ["Hel", "lo"] ["!"] 1 rfl rfl rfl (by decide) rfl rfl rfl (by decide)
      (by decide)).1,
    (@claim2_progress [("c", ⟨[⟨2, "lo"⟩, ⟨1, "Hel"⟩], false, none, none, 0⟩)]
      [("c", ⟨[⟨3, "!"⟩, ⟨1, "Hel"⟩, ⟨2, "lo"⟩], false, none, none, 0⟩)] "c"
      ⟨[⟨2, "lo"⟩, ⟨1, "Hel"⟩], false, none, none, 0⟩
      ⟨[⟨3, "!"⟩, ⟨1, "Hel"⟩, ⟨2, "lo"⟩], false, none, none, 0⟩
      ["Hel", "lo"] ["!"] 1 rfl rfl rfl (by decide) rfl rfl rfl (by decide)
      (by decide)).2.1,
    (@claim2_progress [("c", ⟨[⟨2, "lo"⟩, ⟨1, "Hel"⟩], false, none, none, 0⟩)]
      [("c", ⟨[⟨3, "!"⟩, ⟨1, "Hel"⟩, ⟨2, "lo"⟩], false, none, none, 0⟩)] "c"
      ⟨[⟨2, "lo"⟩, ⟨1, "Hel"⟩], false, none, none, 0⟩
      ⟨[⟨3, "!"⟩, ⟨1, "Hel"⟩, ⟨2, "lo"⟩], false, none, none, 0⟩
      ["Hel", "lo"] ["!"] 1 rfl rfl rfl (by decide) rfl rfl rfl (by decide)
      (by decide)).2.2⟩

/-- Counterexample to C3 as stated: for the record `[(1,"a"), (2,"b")]` and
`lastIndex = 1`, the reader returns `"b"` (the entries at sorted positions
≥ 1, i.e. index strictly greater than 1), not the concatenation `"ab"` of
all entries whose index is ≥ 1. -/
theorem claim3_counterexample :
    handleGet [("c", ⟨[⟨1, "a"⟩, ⟨2, "b"⟩], false, none, none, 0⟩)] "c" (some 1) =
      .chunk 2 "b" ∧
    concatIndexGe [⟨1, "a"⟩, ⟨2, "b"⟩] 1 = "ab" ∧
    handleGet [("c", ⟨[⟨1, "a"⟩, ⟨2, "b"⟩], false, none, none, 0⟩)] "c" (some 1) ≠
      .chunk 2 (concatIndexGe [⟨1, "a"⟩, ⟨2, "b"⟩] 1) := by
  refine ⟨by decide, by decide, by decide⟩

/-- C3 (amended): for a non-terminal producer record, the partial result is
the concatenation of the token text of the stored entries whose index is
*strictly greater than* `lastIndex` (in index order), `nextIndex` is the
stored token list length, and `lastIndex` defaults to 0 when absent. -/
theorem claim3_partial_read {store : KVStore} {id : String}
    {conv : ConversationRecord} {ts : List String} (k : Nat)
    (hget : kvGet store id = some conv) (herr : conv.error = none)
    (hdone : conv.done = false) (hperm : conv.tokens.Perm (canonicalTokens 1 ts)) :
    handleGet store id (some k) =
      .chunk conv.tokens.length
        (joinStrs (((canonicalTokens 1 ts).filter
          (fun e => decide (k < e.index))).map (·.token))) ∧
    handleGet store id none = handleGet store id (some 0) := by
  constructor
  · have h1 : ((canonicalTokens 1 ts).filter (fun e => decide (k < e.index))).map
        (·.token) = ts.drop k := by
      rw [canonicalTokens_filter_drop, canonicalTokens_drop, canonicalTokens_map_token]
    rw [h1, hperm.length_eq, canonicalTokens_length]
    exact handleGet_canonical k hget herr hdone hperm
  · rfl

/-- Witness for C3 (amended): at `lastIndex = 1` the reader returns the text
of the entries with index > 1 and next-index 2. -/
theorem claim3_witness :
    kvGet [("c", ⟨[⟨1, "a"⟩, ⟨2, "b"⟩], false, none, none, 0⟩)] "c" =
        some ⟨[⟨1, "a"⟩, ⟨2, "b"⟩], false, none, none, 0⟩ ∧
    ([⟨1, "a"⟩, ⟨2, "b"⟩] : List TokenEntry).Perm (canonicalTokens 1 ["a", "b"]) ∧
    handleGet [("c", ⟨[⟨1, "a"⟩, ⟨2, "b"⟩], false, none, none, 0⟩)] "c" (some 1) =
      .chunk 2 (joinStrs (((canonicalTokens 1 ["a", "b"]).filter
        (fun e => decide (1 < e.index))).map (·.token))) ∧
    handleGet [("c", ⟨[⟨1, "a"⟩, ⟨2, "b"⟩], false, none, none, 0⟩)] "c" none =
      handleGet [("c", ⟨[⟨1, "a"⟩, ⟨2, "b"⟩], false, none, none, 0⟩)] "c" (some 0) :=
  ⟨rfl, by decide,
    (@claim3_partial_read [("c", ⟨[⟨1, "a"⟩, ⟨2, "b"⟩], false, none, none, 0⟩)] "c"
      ⟨[⟨1, "a"⟩, ⟨2, "b"⟩], false, none, none, 0⟩ ["a", "b"] 1 rfl rfl rfl
      (by decide)).1,
    (@claim3_partial_read [("c", ⟨[⟨1, "a"⟩, ⟨2, "b"⟩], false, none, none, 0⟩)] "c"
      ⟨[⟨1, "a"⟩, ⟨2, "b"⟩], false, none, none, 0⟩ ["a", "b"] 1 rfl rfl rfl
      (by decide)).2⟩

/-- C4 (amended): a request with a falsy `message`. In non-stream mode the
handler answers 400 with the validation message, leaves the store untouched,
and a read for an id with no record still reports NotFound. In stream mode
the handler ends the raw reply (no 400 response) and *does* write a terminal
error record `{code: 400, error: message}` for the id, after which every read
returns that error variant, not NotFound. -/
theorem claim4_validation {store : KVStore} {id : String} {body : PostBody}
    (prov : ProviderCall) (now : Nat) (clientToUse : String)
    (hmsg : jsTruthyStr body.message = false) :
    (body.stream = false →
      handlePost store id body prov now clientToUse =
        some (store, .errorSent 400 "The message parameter is required.") ∧
      (kvGet store id = none → ∀ k, handleGet store id k = .errorEvent notFoundErr)) ∧
    (body.stream = true →
      handlePost store id body prov now clientToUse =
        some (kvSet store id
          { error := some (some ⟨400, "The message parameter is required."⟩) },
          .streamEnd) ∧
      ∀ k, handleGet (kvSet store id
          { error := some (some ⟨400, "The message parameter is required."⟩) }) id k =
        .errorEvent ⟨400, "The message parameter is required."⟩) := by
  constructor
  · intro hs
    constructor
    · simp only [handlePost, hmsg, Bool.false_eq_true, if_false, postErrorPath, hs]
      rfl
    · intro habs k
      exact handleGet_absent k habs
  · intro hs
    constructor
    · simp only [handlePost, hmsg, Bool.false_eq_true, if_false, postErrorPath, hs,
        if_true]
      rfl
    · intro k
      exact handleGet_error k (kvGet_kvSet_self ..) rfl

/-- Counterexample to C4 as stated: in stream mode, a POST with no `message`
*does* write to the store (a terminal error record with code 400), the reply
is a bare stream end rather than a 400 response, and a subsequent read
returns that error, not NotFound. -/
theorem claim4_counterexample :
    handlePost ([] : KVStore) "c" ⟨none, true⟩ ⟨[], .ok "r"⟩ 0 "chatgpt" =
      some ([("c", ⟨[], false, none,
          some ⟨400, "The message parameter is required."⟩, 0⟩)], .streamEnd) ∧
    kvGet [("c", ⟨[], false, none,
        some ⟨400, "The message parameter is required."⟩, 0⟩)] "c" ≠ none ∧
    handleGet [("c", ⟨[], false, none,
        some ⟨400, "The message parameter is required."⟩, 0⟩)] "c" (some 0) ≠
      .errorEvent notFoundErr := by
  refine ⟨by decide, by decide, by decide⟩

/-- Witness for C4 (amended), non-stream mode on an empty store. -/
theorem claim4_witness :
    jsTruthyStr (⟨none, false⟩ : PostBody).message = false ∧
    handlePost ([] : KVStore) "c" ⟨none, false⟩ ⟨[], .ok "r"⟩ 0 "chatgpt" =
      some (([] : KVStore), .errorSent 400 "The message parameter is required.") ∧
    handleGet ([] : KVStore) "c" (some 0) = .errorEvent notFoundErr :=
  ⟨rfl,
    ((@claim4_validation [] "c" ⟨none, false⟩ ⟨[], .ok "r"⟩ 0 "chatgpt" rfl).1 rfl).1,
    ((@claim4_validation [] "c" ⟨none, false⟩ ⟨[], .ok "r"⟩ 0 "chatgpt" rfl).1 rfl).2
      rfl (some 0)⟩

/-- C8 (amended): when the provider call fails in streaming mode, the handler
persists a terminal record whose error field pairs
`code = error?.data?.code || 503` with
`message = error?.data?.message || default`: the code equals the code attached
by the provider error when that code is present *and nonzero*, and 503 when no
code is attached; pollers then observe exactly this error via the reader. -/
theorem claim8_provider_error {store store₁ : KVStore} {id : String}
    {body : PostBody} {prov : ProviderCall} {e : ProvErr} (now : Nat)
    (clientToUse : String) (hstream : body.stream = true)
    (hmsg : jsTruthyStr body.message = true) (hout : prov.outcome = .err e)
    (hrun : producerSteps id now store 0 prov.tokens = some store₁) :
    handlePost store id body prov now clientToUse =
      some (kvSet store₁ id
        { error := some (some ⟨errCodeOf e.data, errMessageOf e.data clientToUse⟩) },
        .streamEnd) ∧
    (∀ conv, kvGet (kvSet store₁ id
        { error := some (some ⟨errCodeOf e.data,
            errMessageOf e.data clientToUse⟩) }) id = some conv →
      conv.error = some ⟨errCodeOf e.data, errMessageOf e.data clientToUse⟩) ∧
    (∀ c, e.data.bind (·.code) = some c → c ≠ 0 → errCodeOf e.data = c) ∧
    (e.data.bind (·.code) = none → errCodeOf e.data = 503) ∧
    (∀ k, handleGet (kvSet store₁ id
        { error := some (some ⟨errCodeOf e.data,
            errMessageOf e.data clientToUse⟩) }) id k =
      .errorEvent ⟨errCodeOf e.data, errMessageOf e.data clientToUse⟩) := by
  refine ⟨?_, ?_, ?_, ?_, ?_⟩
  · simp only [handlePost, hmsg, if_true, hout, hstream, hrun, postErrorPath]
  · intro conv hconv
    rw [kvGet_kvSet_self] at hconv
    cases hconv
    rfl
  · intro c hc hne
    simp only [errCodeOf, hc, jsOrNat, if_neg hne]
  · intro hc
    simp only [errCodeOf, hc, jsOrNat]
  · intro k
    exact handleGet_error k (kvGet_kvSet_self ..) rfl

/-- Counterexample to C8 as stated: a provider error that attaches the code 0
is persisted with code 503, not 0 (`error?.data?.code || 503` treats 0 as
absent). -/
theorem claim8_counterexample :
    handlePost ([] : KVStore) "c" ⟨some "hi", true⟩
        ⟨[], .err ⟨some ⟨some 0, some "boom"⟩⟩⟩ 0 "chatgpt" =
      some ([("c", ⟨[], false, none, some ⟨503, "boom"⟩, 0⟩)], .streamEnd) ∧
    (some ⟨some 0, some "boom"⟩ : Option ErrData).bind (·.code) = some 0 ∧
    errCodeOf (some ⟨some 0, some "boom"⟩) ≠ 0 := by
  refine ⟨by decide, by decide, by decide⟩

/-- Witness for C8 (amended): one streamed token, then a provider error with
attached code 500. -/
theorem claim8_witness :
    (⟨some "hi", true⟩ : PostBody).stream = true ∧
    jsTruthyStr (⟨some "hi", true⟩ : PostBody).message = true ∧
    (⟨["tok"], .err ⟨some ⟨some 500, some "boom"⟩⟩⟩ : ProviderCall).outcome =
      .err ⟨some ⟨some 500, some "boom"⟩⟩ ∧
    producerSteps "c" 7 ([] : KVStore) 0 ["tok"] =
      some [("c", ⟨[⟨1, "tok"⟩], false, none, none, 607⟩)] ∧
    handlePost ([] : KVStore) "c" ⟨some "hi", true⟩
        ⟨["tok"], .err ⟨some ⟨some 500, some "boom"⟩⟩⟩ 7 "chatgpt" =
      some (kvSet [("c", ⟨[⟨1, "tok"⟩], false, none, none, 607⟩)] "c"
        { error := some (some ⟨errCodeOf (some ⟨some 500, some "boom"⟩),
            errMessageOf (some ⟨some 500, some "boom"⟩) "chatgpt"⟩) },
        .streamEnd) ∧
    errCodeOf (some ⟨some 500, some "boom"⟩) = 500 ∧
    handleGet (kvSet [("c", ⟨[⟨1, "tok"⟩], false, none, none, 607⟩)] "c"
        { error := some (some ⟨errCodeOf (some ⟨some 500, some "boom"⟩),
            errMessageOf (some ⟨some 500, some "boom"⟩) "chatgpt"⟩) }) "c" (some 0) =
      .errorEvent ⟨errCodeOf (some ⟨some 500, some "boom"⟩),
        errMessageOf (some ⟨some 500, some "boom"⟩) "chatgpt"⟩ :=
  ⟨rfl, rfl, rfl, by decide,
    (@claim8_provider_error [] [("c", ⟨[⟨1, "tok"⟩], false, none, none, 607⟩)] "c"
      ⟨some "hi", true⟩ ⟨["tok"], .err ⟨some ⟨some 500, some "boom"⟩⟩⟩
      ⟨some ⟨some 500, some "boom"⟩⟩ 7 "chatgpt" rfl rfl rfl (by decide)).1,
    (@claim8_provider_error [] [("c", ⟨[⟨1, "tok"⟩], false, none, none, 607⟩)] "c"
      ⟨some "hi", true⟩ ⟨["tok"], .err ⟨some ⟨some 500, some "boom"⟩⟩⟩
      ⟨some ⟨some 500, some "boom"⟩⟩ 7 "chatgpt" rfl rfl rfl (by decide)).2.2.1
      500 rfl (by decide),
    (@claim8_provider_error [] [("c", ⟨[⟨1, "tok"⟩], false, none, none, 607⟩)] "c"
      ⟨some "hi", true⟩ ⟨["tok"], .err ⟨some ⟨some 500, some "boom"⟩⟩⟩
      ⟨some ⟨some 500, some "boom"⟩⟩ 7 "chatgpt" rfl rfl rfl (by decide)).2.2.2.2
      (some 0)⟩
